import Mathlib

/-!
Shallow embedding of `drivers/net/mlx5/mlx5_vdpa.c` (mlx5 vDPA driver).

Pure computations (notification offsets, correlation tags) are embedded as
Lean functions on `Nat` with explicit `% 2 ^ w` where the C code uses fixed
width unsigned integers.  Stateful driver entry points are embedded as
functions from an explicit hardware environment (`HwEnv`, the outcomes of
the external glue / vhost library calls made by the driver) and a device
context (`vdpa_priv`) to a result code, an updated context and, where the
claims concern ordering of steps, a trace of the calls the function issued.
-/

/-- Driver static queue limit `MLX5_VDPA_SW_MAX_VIRTQS_SUPPORTED` (line 21). -/
def MLX5_VDPA_SW_MAX_VIRTQS_SUPPORTED : Nat := 1

/-- Placeholder completion queue id `SPECIAL_CQ_FOR_VDPA` (line 22). -/
def SPECIAL_CQ_FOR_VDPA : Nat := 0

/-- Bit position of `VHOST_USER_F_PROTOCOL_FEATURES`; external vhost header
constant (not part of this repository), exact value immaterial to the claims. -/
def VHOST_USER_F_PROTOCOL_FEATURES : Nat := 30

/-- Bit position of `VIRTIO_F_VERSION_1`; external virtio header constant. -/
def VIRTIO_F_VERSION_1 : Nat := 32

/-- Bit position of `VHOST_USER_PROTOCOL_F_SLAVE_REQ`; external header constant. -/
def VHOST_USER_PROTOCOL_F_SLAVE_REQ : Nat := 5

/-- Bit position of `VHOST_USER_PROTOCOL_F_SLAVE_SEND_FD`; external header constant. -/
def VHOST_USER_PROTOCOL_F_SLAVE_SEND_FD : Nat := 10

/-- Bit position of `VHOST_USER_PROTOCOL_F_HOST_NOTIFIER`; external header constant. -/
def VHOST_USER_PROTOCOL_F_HOST_NOTIFIER : Nat := 11

/-- Feature bitmask constant `MLX5_VDPA_FEATURES` (lines 24-25). -/
def MLX5_VDPA_FEATURES : Nat :=
  (1 <<< VHOST_USER_F_PROTOCOL_FEATURES) ||| (1 <<< VIRTIO_F_VERSION_1)

/-- Protocol feature bitmask constant `MLX5_VDPA_PROTOCOL_FEATURES` (lines 27-30). -/
def MLX5_VDPA_PROTOCOL_FEATURES : Nat :=
  (1 <<< VHOST_USER_PROTOCOL_F_SLAVE_REQ) |||
  (1 <<< VHOST_USER_PROTOCOL_F_SLAVE_SEND_FD) |||
  (1 <<< VHOST_USER_PROTOCOL_F_HOST_NOTIFIER)

/-- Capability record `struct mlx5_vdpa_caps` (lines 35-40). -/
structure mlx5_vdpa_caps where
  dump_mkey : Nat
  max_num_virtqs : Nat
  virtio_net_features : Nat
  virtio_protocol_features : Nat
deriving DecidableEq

/-- Per virtqueue bookkeeping `struct virtq_info` (lines 42-45); `rq_obj` is the
DevX object handle pointer, `none` standing for `NULL`. -/
structure virtq_info where
  rqn : Nat
  rq_obj : Option Nat
deriving DecidableEq

/-- Relay worker state `struct mlx5_vdpa_relay_thread` (lines 47-51). -/
structure mlx5_vdpa_relay_thread where
  epfd : Int
  tid : Option Nat
  notify_base : Option Nat
deriving DecidableEq

/-- Device context `struct vdpa_priv` (lines 53-65).  The C array
`virtq[MLX5_VDPA_SW_MAX_VIRTQS_SUPPORTED * 2]` has exactly 2 entries; it is
embedded as a total map from queue index to slot for convenience, but a map
index at or beyond the capacity `MLX5_VDPA_SW_MAX_VIRTQS_SUPPORTED * 2` has
no counterpart in the program (there the C code would index the array out of
bounds), so every theorem about slot contents restricts its queue counts and
indices to that capacity. -/
structure vdpa_priv where
  id : Int
  vid : Int
  pdn : Nat
  nr_vring : Nat
  pd_obj : Option Nat
  dev_attached : Bool
  caps : mlx5_vdpa_caps
  virtq : Nat → virtq_info
  relay : mlx5_vdpa_relay_thread

/-- General capability section fields read by `mlx5_vdpa_query_virtio_caps`:
the `dump_fill_mkey` support flag (line 470) and the
`MLX5_GENERAL_OBJ_TYPES_CAP_VIRTQ` bit of `general_obj_types` (lines 489-490). -/
structure cmd_hca_cap where
  dump_fill_mkey : Bool
  general_obj_types_virtq : Bool
deriving DecidableEq

/-- Outcomes of the external calls the driver makes (rte_vhost library, mlx5
glue DevX commands, mmap, pthread_create).  Each field gives the result the
corresponding call returns in the modelled run; the `dv_devx_create_rq`
oracle is additionally indexed by the virtqueue index to distinguish the
successive hardware calls of the provisioning loop. -/
structure HwEnv where
  rte_vhost_get_vdpa_device_id : Int → Int
  rte_vhost_get_vring_num : Int → Nat
  vring_size : Int → Nat → Nat
  dv_devx_alloc_pd : Option (Nat × Nat)
  dv_devx_create_rq : Nat → Nat → Nat → Option (Nat × Nat)
  dv_devx_obj_destroy : Option Nat → Int
  query_hca_cap_general : Option cmd_hca_cap
  query_special_contexts : Option Nat
  query_emulation_max_virtqs : Option Nat
  mmap_doorbell : Nat → Option Nat
  pthread_create_tid : Option Nat
  page_size : Nat

/-! Device registry (lines 67-75, 159-176, 643-645). -/

/-- Registry lookup `find_priv_resource_by_did` (lines 159-176): linear scan
for the first context whose id matches. -/
def find_priv_resource_by_did (reg : List vdpa_priv) (did : Int) : Option vdpa_priv :=
  reg.find? fun p => p.id == did

/-- Registration step: `TAILQ_INSERT_TAIL(&priv_list, priv_list_elem, next)`
(line 644); entries are only ever appended, never removed. -/
def register_priv (reg : List vdpa_priv) (p : vdpa_priv) : List vdpa_priv :=
  reg ++ [p]

/-- Query `mlx5_vdpa_get_queue_num` (lines 178-190); `none` models the
`-1` / unset out parameter failure path. -/
def mlx5_vdpa_get_queue_num (reg : List vdpa_priv) (did : Int) : Option Nat :=
  match find_priv_resource_by_did reg did with
  | none => none
  | some p => some p.caps.max_num_virtqs

/-- Query `mlx5_vdpa_get_vdpa_features` (lines 192-204). -/
def mlx5_vdpa_get_vdpa_features (reg : List vdpa_priv) (did : Int) : Option Nat :=
  match find_priv_resource_by_did reg did with
  | none => none
  | some p => some p.caps.virtio_net_features

/-- Query `mlx5_vdpa_get_protocol_features` (lines 435-447). -/
def mlx5_vdpa_get_protocol_features (reg : List vdpa_priv) (did : Int) : Option Nat :=
  match find_priv_resource_by_did reg did with
  | none => none
  | some p => some p.caps.virtio_protocol_features

/-! Notification area offset computation (lines 206-259). -/

/-- `MLX5_IB_MMAP_CMD_SHIFT` (line 206). -/
def MLX5_IB_MMAP_CMD_SHIFT : Nat := 8

/-- `MLX5_IB_MMAP_INDEX_MASK` (line 207). -/
def MLX5_IB_MMAP_INDEX_MASK : Nat := (1 <<< MLX5_IB_MMAP_CMD_SHIFT) - 1

/-- `MLX5_IB_CMD_SIZE` (line 208). -/
def MLX5_IB_CMD_SIZE : Nat := 8

/-- `MLX5_IB_MMAP_VIRTIO_NOTIFY` (line 209). -/
def MLX5_IB_MMAP_VIRTIO_NOTIFY : Nat := 9

/-- `mlx5_vdpa_set_command` (lines 210-215); `offset` is a `uint16_t`, hence
the explicit reduction modulo `2 ^ 16`. -/
def mlx5_vdpa_set_command (command : Nat) (offset : Nat) : Nat :=
  (offset ||| (command <<< MLX5_IB_MMAP_CMD_SHIFT)) % 2 ^ 16

/-- `mlx5_vdpa_set_ext_index` (lines 217-225). -/
def mlx5_vdpa_set_ext_index (index : Nat) (offset : Nat) : Nat :=
  (offset |||
    (((index >>> MLX5_IB_MMAP_CMD_SHIFT) <<< (MLX5_IB_MMAP_CMD_SHIFT + MLX5_IB_CMD_SIZE)) |||
      (index &&& MLX5_IB_MMAP_INDEX_MASK))) % 2 ^ 16

/-- `mlx5_vdpa_get_notify_offset` (lines 230-238): the queue id argument is
`__rte_unused`; the offset is built from the fixed notify command and
extended index 0. -/
def mlx5_vdpa_get_notify_offset (qid : Nat) : Nat :=
  mlx5_vdpa_set_ext_index 0 (mlx5_vdpa_set_command MLX5_IB_MMAP_VIRTIO_NOTIFY 0)

/-- Result record for `get_notify_area`. -/
structure notify_area where
  offset : Nat
  size : Nat
deriving DecidableEq

/-- `mlx5_vdpa_report_notify_area` (lines 240-259): page index scaled by the
host page size, size always exactly one page, return code always 0. -/
def mlx5_vdpa_report_notify_area (page_size : Nat) (vid : Int) (qid : Nat) :
    Int × notify_area :=
  (0, { offset := mlx5_vdpa_get_notify_offset qid * page_size, size := page_size })

/-! Resource provisioner (lines 77-157). -/

/-- `create_pd` (lines 77-93): the DevX `ALLOC_PD` command either fails or
yields the PD object handle and PD number. -/
def create_pd (env : HwEnv) (priv : vdpa_priv) : Int × vdpa_priv :=
  match env.dv_devx_alloc_pd with
  | none => (-1, priv)
  | some pd => (0, { priv with pdn := pd.2, pd_obj := some pd.1 })

/-- `create_rq` (lines 95-121): the DevX `CREATE_RQ` command is issued with
the fixed placeholder cqn `SPECIAL_CQ_FOR_VDPA`, the guest queue size as
`log_wq_sz` and the current PD number; on success the slot at `idx` records
the returned object handle and RQ number. -/
def create_rq (env : HwEnv) (priv : vdpa_priv) (qsize : Nat) (idx : Nat) :
    Int × vdpa_priv :=
  match env.dv_devx_create_rq idx qsize priv.pdn with
  | none => (-1, priv)
  | some rq =>
      (0, { priv with
              virtq := fun j =>
                if j = idx then { rqn := rq.2, rq_obj := some rq.1 }
                else priv.virtq j })

/-- Loop body of `mlx5_vdpa_setup_rx` (lines 129-138): for each index, on even
indices (`i == 0 || i % 2 == 0`) a receive queue creation is attempted; a
failure is only logged and the loop continues.  The returned list records the
indices at which a creation call was attempted, in order. -/
def setup_rx_loop (env : HwEnv) : List Nat → vdpa_priv → vdpa_priv × List Nat
  | [], priv => (priv, [])
  | i :: rest, priv =>
    if i == 0 || i % 2 == 0 then
      ((setup_rx_loop env rest (create_rq env priv (env.vring_size priv.vid i) i).2).1,
        i :: (setup_rx_loop env rest (create_rq env priv (env.vring_size priv.vid i) i).2).2)
    else
      setup_rx_loop env rest priv

/-- `mlx5_vdpa_setup_rx` (lines 123-141): iterates all guest virtqueue
indices, records the vring count in `nr_vring`, and always returns 0. -/
def mlx5_vdpa_setup_rx (env : HwEnv) (priv : vdpa_priv) :
    Int × vdpa_priv × List Nat :=
  let nr_vring := env.rte_vhost_get_vring_num priv.vid
  let lp := setup_rx_loop env (List.range nr_vring) priv
  (0, { lp.1 with nr_vring := nr_vring }, lp.2)

/-- Bookkeeping step `priv->virtq[i].rqn = 0` of line 153: the `rqn` field of
slot `i` is reset, the object handle is not cleared. -/
def zero_rqn (priv : vdpa_priv) (i : Nat) : vdpa_priv :=
  { priv with
      virtq := fun j =>
        if j = i then { priv.virtq i with rqn := 0 } else priv.virtq j }

/-- Loop body of `mlx5_vdpa_release_rx` (lines 147-155): on even indices the
RQ object of the slot is destroyed; a failing destroy returns `-1`
immediately, a successful one resets `rqn` via `zero_rqn`.  The returned
list records the indices at which a destroy was attempted. -/
def release_rx_loop (env : HwEnv) : List Nat → vdpa_priv → Int × vdpa_priv × List Nat
  | [], priv => (0, priv, [])
  | i :: rest, priv =>
    if i == 0 || i % 2 == 0 then
      if env.dv_devx_obj_destroy (priv.virtq i).rq_obj != 0 then
        (-1, priv, [i])
      else
        ((release_rx_loop env rest (zero_rqn priv i)).1,
          (release_rx_loop env rest (zero_rqn priv i)).2.1,
          i :: (release_rx_loop env rest (zero_rqn priv i)).2.2)
    else
      release_rx_loop env rest priv

/-- `mlx5_vdpa_release_rx` (lines 143-157). -/
def mlx5_vdpa_release_rx (env : HwEnv) (priv : vdpa_priv) :
    Int × vdpa_priv × List Nat :=
  release_rx_loop env (List.range priv.nr_vring) priv

/-! Notification relay (lines 261-327). -/

/-- Doorbell write issued by `mlx5_vdpa_notify_queue` (lines 261-269):
`rte_write32(qid, priv->relay.notify_base)` — a 4 byte write of the queue
index to the mapped doorbell base. -/
structure doorbell_write where
  value : Nat
  width : Nat
  base : Option Nat
deriving DecidableEq

/-- `mlx5_vdpa_notify_queue` (lines 261-269). -/
def mlx5_vdpa_notify_queue (priv : vdpa_priv) (qid : Nat) : doorbell_write :=
  { value := qid, width := 4, base := priv.relay.notify_base }

/-- Errno values distinguished by the kick descriptor read loop. -/
inductive vdpa_errno where
  | eintr
  | eagain
  | ewouldblock
  | other (code : Nat)
deriving DecidableEq

/-- Outcome of one `read(kickfd, &buf, 8)` call (line 311). -/
inductive read_result where
  | ok (nbytes : Nat)
  | err (e : vdpa_errno)
deriving DecidableEq

/-- The errno values the read loop retries on (lines 313-315). -/
def retryable_read_errno : vdpa_errno → Bool
  | .eintr => true
  | .eagain => true
  | .ewouldblock => true
  | .other _ => false

/-- A read outcome the loop does not break on. -/
def read_result_retryable : read_result → Bool
  | .ok _ => false
  | .err e => retryable_read_errno e

/-- Kick descriptor drain loop plus the following doorbell write
(lines 310-323): successive read outcomes are consumed while they are
retryable errors; the loop breaks on the first success or on a
non-retryable error (which is only logged, collected here in the second
component), after which exactly one doorbell write of the queue index is
issued.  An exhausted outcome list (no terminal read available) yields no
write; the relay theorems assume a terminal outcome exists, as it does for
a real eventfd. -/
def kickfd_drain (priv : vdpa_priv) (qid : Nat) :
    List read_result → List doorbell_write × List vdpa_errno
  | [] => ([], [])
  | .ok _ :: _ => ([mlx5_vdpa_notify_queue priv qid], [])
  | .err e :: rest =>
    if retryable_read_errno e then kickfd_drain priv qid rest
    else ([mlx5_vdpa_notify_queue priv qid], [e])

/-- Correlation tag packing `ev.data.u64 = qid | (uint64_t)vring.kickfd << 32`
(line 293); the value is a `uint64_t`, hence the reduction modulo `2 ^ 64`. -/
def relay_pack_tag (qid kickfd : Nat) : Nat :=
  (qid ||| (kickfd <<< 32)) % 2 ^ 64

/-- Queue index extraction `qid = events[i].data.u32` (line 308): the low 32
bits of the correlation tag. -/
def epoll_data_u32 (tag : Nat) : Nat := tag % 2 ^ 32

/-- Kick descriptor extraction `kickfd = (uint32_t)(events[i].data.u64 >> 32)`
(line 309). -/
def relay_tag_kickfd (tag : Nat) : Nat := (tag >>> 32) % 2 ^ 32

/-- One wake iteration of the relay worker loop (lines 307-324): for each
ready event tag, extract queue index and kick descriptor from the tag, run
the drain loop on the pending read outcomes of that descriptor, and issue the
doorbell write.  Returns all doorbell writes issued and all logged read
errors of the iteration, in order. -/
def relay_wake_iteration (priv : vdpa_priv) (reads : Nat → List read_result) :
    List Nat → List doorbell_write × List vdpa_errno
  | [] => ([], [])
  | tag :: rest =>
    ((kickfd_drain priv (epoll_data_u32 tag) (reads (relay_tag_kickfd tag))).1 ++
        (relay_wake_iteration priv reads rest).1,
      (kickfd_drain priv (epoll_data_u32 tag) (reads (relay_tag_kickfd tag))).2 ++
        (relay_wake_iteration priv reads rest).2)

/-- `mlx5_vdpa_setup_notify_relay` (lines 329-358): compute the notify area
(which always succeeds), mmap the doorbell page, then start the worker
thread; either external call can fail. -/
def mlx5_vdpa_setup_notify_relay (env : HwEnv) (priv : vdpa_priv) :
    Int × vdpa_priv :=
  let area := (mlx5_vdpa_report_notify_area env.page_size priv.id 0).2
  match env.mmap_doorbell area.offset with
  | none => (-1, priv)
  | some addr =>
    let priv2 := { priv with relay := { priv.relay with notify_base := some addr } }
    match env.pthread_create_tid with
    | none => (-1, priv2)
    | some tid => (0, { priv2 with relay := { priv2.relay with tid := some tid } })

/-- `mlx5_vdpa_unset_notify_relay` (lines 388-405): cancel and join the
worker if present, close the epoll descriptor, unmap the doorbell page,
clear all relay fields; always returns 0. -/
def mlx5_vdpa_unset_notify_relay (priv : vdpa_priv) : Int × vdpa_priv :=
  (0, { priv with relay := { epfd := -1, tid := none, notify_base := none } })

/-! Capability negotiation (lines 449-515). -/

/-- Tail of `mlx5_vdpa_query_virtio_caps` (lines 507-509): the unconditional
assignments executed after the emulation branch, overwriting
`max_num_virtqs` with the static software limit and installing the fixed
feature bitmask constants. -/
def query_virtio_caps_tail (priv : vdpa_priv) : Int × vdpa_priv :=
  (0, { priv with
          caps := { priv.caps with
                      max_num_virtqs := MLX5_VDPA_SW_MAX_VIRTQS_SUPPORTED,
                      virtio_net_features := MLX5_VDPA_FEATURES,
                      virtio_protocol_features := MLX5_VDPA_PROTOCOL_FEATURES } })

/-- `mlx5_vdpa_query_virtio_caps` (lines 449-515): general capability query,
`dump_fill_mkey` support check, special contexts query, then the emulation
branch (lines 489-506) assigning `max_num_virtqs` from the emulation
capability or the static limit — followed by the unconditional tail
assignments of lines 507-509. -/
def mlx5_vdpa_query_virtio_caps (env : HwEnv) (priv : vdpa_priv) :
    Int × vdpa_priv :=
  match env.query_hca_cap_general with
  | none => (-1, priv)
  | some cap =>
    if !cap.dump_fill_mkey then (-1, priv)
    else
      match env.query_special_contexts with
      | none => (-1, priv)
      | some mkey =>
        let priv1 := { priv with caps := { priv.caps with dump_mkey := mkey } }
        if cap.general_obj_types_virtq then
          match env.query_emulation_max_virtqs with
          | none => (-1, priv1)
          | some hw_max =>
            query_virtio_caps_tail
              { priv1 with caps := { priv1.caps with max_num_virtqs := hw_max } }
        else
          query_virtio_caps_tail
            { priv1 with
                caps := { priv1.caps with
                            max_num_virtqs := MLX5_VDPA_SW_MAX_VIRTQS_SUPPORTED } }

/-! Lifecycle orchestration (lines 360-386, 407-433). -/

/-- Calls issued by `mlx5_vdpa_dev_config`, in order; the relay setup call
records the return value the driver receives (and ignores). -/
inductive config_event where
  | create_pd_call
  | create_rq_call (idx : Nat)
  | setup_relay_call (ret : Int)
  | set_attached
deriving DecidableEq

/-- `mlx5_vdpa_dev_config` (lines 360-386): resolve the device id, look the
context up, bind the session id, allocate the PD (aborting on failure), run
the RX provisioning (whose result, always 0, is checked at line 379), start
the notify relay with the result discarded (line 383), set the attachment
flag and return 0. -/
def mlx5_vdpa_dev_config (env : HwEnv) (reg : List vdpa_priv) (vid : Int) :
    Int × Option vdpa_priv × List config_event :=
  match find_priv_resource_by_did reg (env.rte_vhost_get_vdpa_device_id vid) with
  | none => (-1, none, [])
  | some priv0 =>
    let priv := { priv0 with vid := vid }
    let pd := create_pd env priv
    if pd.1 != 0 then (-1, some pd.2, [.create_pd_call])
    else
      let rx := mlx5_vdpa_setup_rx env pd.2
      if rx.1 != 0 then
        (-1, some rx.2.1, .create_pd_call :: rx.2.2.map .create_rq_call)
      else
        let relay := mlx5_vdpa_setup_notify_relay env rx.2.1
        (0, some { relay.2 with dev_attached := true },
          .create_pd_call :: rx.2.2.map .create_rq_call ++
            [.setup_relay_call relay.1, .set_attached])

/-- Calls issued by `mlx5_vdpa_dev_close`, in order. -/
inductive close_event where
  | unset_relay_call
  | destroy_pd_call
  | release_rx_call
  | clear_attached
deriving DecidableEq

/-- `mlx5_vdpa_dev_close` (lines 407-433): resolve and look up the context,
stop the relay, destroy the PD object (returning -1 on failure), zero the PD
number, release the RX resources (returning -1 on failure), clear the
attachment flag and return 0. -/
def mlx5_vdpa_dev_close (env : HwEnv) (reg : List vdpa_priv) (vid : Int) :
    Int × Option vdpa_priv × List close_event :=
  match find_priv_resource_by_did reg (env.rte_vhost_get_vdpa_device_id vid) with
  | none => (-1, none, [])
  | some priv0 =>
    let priv := (mlx5_vdpa_unset_notify_relay priv0).2
    if env.dv_devx_obj_destroy priv.pd_obj != 0 then
      (-1, some priv, [.unset_relay_call, .destroy_pd_call])
    else
      let priv1 := { priv with pdn := 0 }
      let rel := mlx5_vdpa_release_rx env priv1
      if rel.1 != 0 then
        (-1, some rel.2.1, [.unset_relay_call, .destroy_pd_call, .release_rx_call])
      else
        (0, some { rel.2.1 with dev_attached := false },
          [.unset_relay_call, .destroy_pd_call, .release_rx_call, .clear_attached])

/-! Concrete fixtures used by witnesses and counterexamples. -/

/-- Projection selecting the receive queue creation calls of a configure
trace, used to state which indices provisioning attempted. -/
def config_event_rq_idx : config_event → Option Nat
  | .create_rq_call i => some i
  | _ => none

/-- Concrete capability record for the fixture contexts. -/
def capsEx : mlx5_vdpa_caps :=
  { dump_mkey := 0, max_num_virtqs := 1, virtio_net_features := 0,
    virtio_protocol_features := 0 }

/-- Unconfigured fixture context (all queue slots empty), as produced by the
zero-allocating probe path (lines 617-618). -/
def privEx0 : vdpa_priv :=
  { id := 0, vid := -1, pdn := 0, nr_vring := 0, pd_obj := none,
    dev_attached := false, caps := capsEx,
    virtq := fun _ => { rqn := 0, rq_obj := none },
    relay := { epfd := -1, tid := none, notify_base := none } }

/-- Configured fixture context: PD allocated, one receive queue provisioned
at index 0, attachment flag set. -/
def privExCfg : vdpa_priv :=
  { id := 0, vid := 0, pdn := 5, nr_vring := 2, pd_obj := some 10,
    dev_attached := true, caps := capsEx,
    virtq := fun i =>
      if i = 0 then { rqn := 7, rq_obj := some 20 } else { rqn := 0, rq_obj := none },
    relay := { epfd := -1, tid := none, notify_base := none } }

/-- Hardware environment in which every external call succeeds. -/
def envOk : HwEnv :=
  { rte_vhost_get_vdpa_device_id := fun _ => 0,
    rte_vhost_get_vring_num := fun _ => 2,
    vring_size := fun _ _ => 4,
    dv_devx_alloc_pd := some (10, 5),
    dv_devx_create_rq := fun _ _ _ => some (20, 7),
    dv_devx_obj_destroy := fun _ => 0,
    query_hca_cap_general := some { dump_fill_mkey := true, general_obj_types_virtq := true },
    query_special_contexts := some 3,
    query_emulation_max_virtqs := some 4,
    mmap_doorbell := fun _ => some 100,
    pthread_create_tid := some 11,
    page_size := 4096 }

/-- Environment in which mapping the doorbell page fails, so
`mlx5_vdpa_setup_notify_relay` fails. -/
def envRelayFail : HwEnv := { envOk with mmap_doorbell := fun _ => none }

/-- Environment in which every DevX object destroy fails. -/
def envDestroyFail : HwEnv := { envOk with dv_devx_obj_destroy := fun _ => 1 }

/-- Environment in which PD allocation fails. -/
def envPdFail : HwEnv := { envOk with dv_devx_alloc_pd := none }

/-- Environment in which every receive-queue creation fails (the degraded
all-software-relay scenario). -/
def envRqFail : HwEnv :=
  { envOk with dv_devx_create_rq := fun _ _ _ => none }

/-- Environment in which destroying the DevX object with handle 20 (the
receive queue of slot 0 of `privExCfg`) fails and every other destroy
succeeds. -/
def envDestroy20Fail : HwEnv :=
  { envOk with
      dv_devx_obj_destroy := fun h => if h = some 20 then 1 else 0 }

/-! Claim theorems. -/

/-- C8: for every device and every queue index, `get_notify_area` succeeds
and returns the identical `{offset, size}` pair — a fixed page-aligned
offset (the constant page index 2304 scaled by the page size, independent
of the queue index) and a size equal to the host page size. -/
theorem notify_area_fixed_for_all_queues (page_size : Nat) (vid : Int) (q1 q2 : Nat) :
    (mlx5_vdpa_report_notify_area page_size vid q1).1 = 0 ∧
    mlx5_vdpa_report_notify_area page_size vid q1 =
      mlx5_vdpa_report_notify_area page_size vid q2 ∧
    (mlx5_vdpa_report_notify_area page_size vid q1).2.offset = 2304 * page_size ∧
    page_size ∣ (mlx5_vdpa_report_notify_area page_size vid q1).2.offset ∧
    (mlx5_vdpa_report_notify_area page_size vid q1).2.size = page_size := by
  have h : mlx5_vdpa_get_notify_offset q1 = 2304 := by
    unfold mlx5_vdpa_get_notify_offset
    decide
  refine ⟨rfl, rfl, ?_, ?_, rfl⟩
  · simp [mlx5_vdpa_report_notify_area, h]
  · exact dvd_mul_left page_size (mlx5_vdpa_get_notify_offset q1)

/-- Bits of a value below `2 ^ 32` vanish at positions 32 and above. -/
theorem testBit_eq_false_of_lt_two_pow_32 {a : Nat} (h : a < 2 ^ 32) {i : Nat}
    (hi : 32 ≤ i) : a.testBit i = false :=
  Nat.testBit_lt_two_pow (lt_of_lt_of_le h (Nat.pow_le_pow_right (by norm_num) hi))

/-- C10: the 64-bit correlation tag round-trips — packing a queue index and a
kick descriptor value, each representable in 32 bits, as
`qid | (kickfd << 32)` and extracting the low and high 32-bit halves
recovers exactly the queue index and the descriptor value. -/
theorem relay_tag_roundtrip (qid kickfd : Nat) (hq : qid < 2 ^ 32)
    (hf : kickfd < 2 ^ 32) :
    epoll_data_u32 (relay_pack_tag qid kickfd) = qid ∧
    relay_tag_kickfd (relay_pack_tag qid kickfd) = kickfd := by
  have hshift : kickfd <<< 32 < 2 ^ 64 := by
    rw [Nat.shiftLeft_eq]
    calc kickfd * 2 ^ 32 < 2 ^ 32 * 2 ^ 32 :=
          (Nat.mul_lt_mul_right (by norm_num)).mpr hf
      _ = 2 ^ 64 := by norm_num
  have hq64 : qid < 2 ^ 64 := lt_of_lt_of_le hq (by norm_num)
  have hpack : relay_pack_tag qid kickfd = qid ||| (kickfd <<< 32) := by
    unfold relay_pack_tag
    exact Nat.mod_eq_of_lt (Nat.or_lt_two_pow hq64 hshift)
  constructor
  · unfold epoll_data_u32
    rw [hpack]
    apply Nat.eq_of_testBit_eq
    intro i
    rcases lt_or_le i 32 with h32 | h32
    · rw [Nat.testBit_mod_two_pow, Nat.testBit_or, Nat.testBit_shiftLeft]
      simp [h32, Nat.not_le.mpr h32]
    · rw [Nat.testBit_mod_two_pow, testBit_eq_false_of_lt_two_pow_32 hq h32]
      simp [Nat.not_lt.mpr h32]
  · unfold relay_tag_kickfd
    rw [hpack]
    apply Nat.eq_of_testBit_eq
    intro i
    rcases lt_or_le i 32 with h32 | h32
    · rw [Nat.testBit_mod_two_pow, Nat.testBit_shiftRight, Nat.testBit_or,
        Nat.testBit_shiftLeft, testBit_eq_false_of_lt_two_pow_32 hq (Nat.le_add_right 32 i)]
      simp [h32, Nat.le_add_right 32 i, Nat.add_sub_cancel_left]
    · rw [Nat.testBit_mod_two_pow, testBit_eq_false_of_lt_two_pow_32 hf h32]
      simp [Nat.not_lt.mpr h32]

/-- Witness for C10 at queue index 3 and kick descriptor 7. -/
theorem relay_tag_roundtrip_witness :
    epoll_data_u32 (relay_pack_tag 3 7) = 3 ∧
    relay_tag_kickfd (relay_pack_tag 3 7) = 7 :=
  relay_tag_roundtrip 3 7 (by norm_num) (by norm_num)

/-- C9: registry lookups on a never-registered device id return `NotFound`
(the three query operations fail for such ids), and once a device id is
registered, `find` returns the same device context on every subsequent
lookup no matter how many further registrations are appended — entries are
never removed. -/
theorem registry_find_spec (reg : List vdpa_priv) (did : Int) (p : vdpa_priv) :
    ((∀ q ∈ reg, q.id ≠ did) →
        find_priv_resource_by_did reg did = none ∧
        mlx5_vdpa_get_queue_num reg did = none ∧
        mlx5_vdpa_get_vdpa_features reg did = none ∧
        mlx5_vdpa_get_protocol_features reg did = none) ∧
    ((∀ q ∈ reg, q.id ≠ p.id) →
      ∀ later : List vdpa_priv,
        find_priv_resource_by_did (register_priv reg p ++ later) p.id = some p) := by
  constructor
  · intro h
    have hfind : find_priv_resource_by_did reg did = none := by
      unfold find_priv_resource_by_did
      rw [List.find?_eq_none]
      intro q hq
      simpa using h q hq
    refine ⟨hfind, ?_, ?_, ?_⟩ <;>
      simp [mlx5_vdpa_get_queue_num, mlx5_vdpa_get_vdpa_features,
        mlx5_vdpa_get_protocol_features, hfind]
  · intro h later
    have hmiss : reg.find? (fun q => q.id == p.id) = none := by
      rw [List.find?_eq_none]
      intro q hq
      simpa using h q hq
    unfold find_priv_resource_by_did register_priv
    rw [List.append_assoc, List.find?_append, hmiss]
    simp

/-- Witness for C9: on the empty registry, id 5 is unknown and all query
operations fail; registering the fixture context makes its id found, also
after a later registration. -/
theorem registry_find_spec_witness :
    mlx5_vdpa_get_queue_num [] 5 = none ∧
    find_priv_resource_by_did (register_priv [] privEx0 ++ [privExCfg]) privEx0.id =
      some privEx0 := by
  refine ⟨((registry_find_spec [] 5 privEx0).1 ?_).2.1,
    (registry_find_spec [] 5 privEx0).2 ?_ [privExCfg]⟩ <;> simp

/-- C3 counterexample: with the all-success fixture environment the
accelerator advertises full virtqueue-object emulation and reports a
hardware maximum of 4 queues, negotiation succeeds, yet the negotiated
maximum queue count is 1, not the hardware-reported 4 — the unconditional
assignment at line 507 overwrites the branch result. -/
theorem query_caps_hw_max_cex :
    envOk.query_hca_cap_general =
      some { dump_fill_mkey := true, general_obj_types_virtq := true } ∧
    envOk.query_emulation_max_virtqs = some 4 ∧
    (mlx5_vdpa_query_virtio_caps envOk privEx0).1 = 0 ∧
    (mlx5_vdpa_query_virtio_caps envOk privEx0).2.caps.max_num_virtqs = 1 ∧
    (mlx5_vdpa_query_virtio_caps envOk privEx0).2.caps.max_num_virtqs ≠ 4 := by
  exact ⟨rfl, rfl, rfl, rfl, by decide⟩

/-- C3 (amended): the emulation branch of `mlx5_vdpa_query_virtio_caps`
assigns the hardware-reported maximum, but the unconditional assignment at
line 507 then overwrites it with the software-relay limit: whenever
negotiation succeeds, the negotiated maximum queue count is exactly 1,
whether or not the accelerator advertises full virtqueue-object
emulation. -/
theorem query_caps_max_virtqs_always_sw_limit (env : HwEnv) (priv : vdpa_priv)
    (h : (mlx5_vdpa_query_virtio_caps env priv).1 = 0) :
    (mlx5_vdpa_query_virtio_caps env priv).2.caps.max_num_virtqs =
      MLX5_VDPA_SW_MAX_VIRTQS_SUPPORTED := by
  rcases hg : env.query_hca_cap_general with _ | cap
  · simp [mlx5_vdpa_query_virtio_caps, hg] at h
  · rcases hd : cap.dump_fill_mkey with _ | _
    · simp [mlx5_vdpa_query_virtio_caps, hg, hd] at h
    · rcases hs : env.query_special_contexts with _ | mkey
      · simp [mlx5_vdpa_query_virtio_caps, hg, hd, hs] at h
      · rcases hv : cap.general_obj_types_virtq with _ | _
        · simp [mlx5_vdpa_query_virtio_caps, hg, hd, hs, hv, query_virtio_caps_tail]
        · rcases he : env.query_emulation_max_virtqs with _ | hw_max
          · simp [mlx5_vdpa_query_virtio_caps, hg, hd, hs, hv, he] at h
          · simp [mlx5_vdpa_query_virtio_caps, hg, hd, hs, hv, he,
              query_virtio_caps_tail]

/-- Witness for the amended C3 theorem at the all-success environment. -/
theorem query_caps_max_virtqs_always_sw_limit_witness :
    (mlx5_vdpa_query_virtio_caps envOk privEx0).2.caps.max_num_virtqs =
      MLX5_VDPA_SW_MAX_VIRTQS_SUPPORTED :=
  query_caps_max_virtqs_always_sw_limit envOk privEx0 rfl

/-- C2 counterexample: with the fixture environment in which mapping the
doorbell page fails, starting the Notification Relay fails (the trace
records its -1 return value), yet configure still returns success and sets
the attachment flag to true. -/
theorem config_relay_failure_cex :
    (mlx5_vdpa_dev_config envRelayFail [privEx0] 0).1 = 0 ∧
    config_event.setup_relay_call (-1) ∈
      (mlx5_vdpa_dev_config envRelayFail [privEx0] 0).2.2 ∧
    ∃ p, (mlx5_vdpa_dev_config envRelayFail [privEx0] 0).2.1 = some p ∧
      p.dev_attached = true := by
  exact ⟨rfl, by decide, ⟨_, rfl, rfl⟩⟩

/-- C2 (amended): `mlx5_vdpa_dev_config` never tests the result of
`mlx5_vdpa_setup_notify_relay`: whenever the device lookup and the
protection-domain allocation succeed, configure reports success and sets
the attachment flag to true regardless of the relay setup outcome. -/
theorem config_ignores_relay_result (env : HwEnv) (reg : List vdpa_priv)
    (vid : Int) (priv : vdpa_priv)
    (hfind : find_priv_resource_by_did reg
        (env.rte_vhost_get_vdpa_device_id vid) = some priv)
    (hpd : env.dv_devx_alloc_pd.isSome = true) :
    (mlx5_vdpa_dev_config env reg vid).1 = 0 ∧
    ∃ p, (mlx5_vdpa_dev_config env reg vid).2.1 = some p ∧
      p.dev_attached = true := by
  rcases hpdv : env.dv_devx_alloc_pd with _ | pd
  · rw [hpdv] at hpd
    simp at hpd
  · simp only [mlx5_vdpa_dev_config, hfind, create_pd, hpdv, mlx5_vdpa_setup_rx]
    exact ⟨rfl, ⟨_, rfl, rfl⟩⟩

/-- Witness for the amended C2 theorem at the relay-failure environment. -/
theorem config_ignores_relay_result_witness :
    (mlx5_vdpa_dev_config envRelayFail [privEx0] 0).1 = 0 ∧
    ∃ p, (mlx5_vdpa_dev_config envRelayFail [privEx0] 0).2.1 = some p ∧
      p.dev_attached = true :=
  config_ignores_relay_result envRelayFail [privEx0] 0 privEx0 rfl rfl

/-- The RX release loop never touches the attachment flag: it only updates
queue slots. -/
theorem release_rx_loop_preserves_dev_attached (env : HwEnv) (l : List Nat)
    (priv : vdpa_priv) :
    (release_rx_loop env l priv).2.1.dev_attached = priv.dev_attached := by
  induction l generalizing priv with
  | nil => rfl
  | cons i rest ih =>
    unfold release_rx_loop
    split
    · split
      · rfl
      · exact ih _
    · exact ih _

/-- C1 counterexample: in a close where every destroy succeeds, both the PD
destroy and the RX release occur, and the RX release does not precede the
PD destroy — `mlx5_vdpa_dev_close` destroys the protection-domain handle
first, contrary to the claimed ordering. -/
theorem close_release_before_pd_destroy_cex :
    (mlx5_vdpa_dev_close envOk [privExCfg] 0).2.2 =
      [close_event.unset_relay_call, close_event.destroy_pd_call,
       close_event.release_rx_call, close_event.clear_attached] ∧
    ¬ ((mlx5_vdpa_dev_close envOk [privExCfg] 0).2.2.indexOf
          close_event.release_rx_call <
        (mlx5_vdpa_dev_close envOk [privExCfg] 0).2.2.indexOf
          close_event.destroy_pd_call) := by
  exact ⟨rfl, by decide⟩

/-- C1 (amended): `mlx5_vdpa_dev_close` destroys the protection-domain
handle immediately after stopping the relay and before any release of the
`queue_resources` entries: every close run that passes the device lookup
produces a trace beginning with the relay stop followed by the PD destroy,
and the PD destroy never occurs again later (so it precedes any RX
release). -/
theorem close_pd_destroy_precedes_release (env : HwEnv) (reg : List vdpa_priv)
    (vid : Int) (priv : vdpa_priv)
    (hfind : find_priv_resource_by_did reg
        (env.rte_vhost_get_vdpa_device_id vid) = some priv) :
    ∃ rest, (mlx5_vdpa_dev_close env reg vid).2.2 =
        close_event.unset_relay_call :: close_event.destroy_pd_call :: rest ∧
      close_event.destroy_pd_call ∉ rest := by
  simp only [mlx5_vdpa_dev_close, hfind]
  split
  · exact ⟨[], rfl, by simp⟩
  · split
    · exact ⟨[close_event.release_rx_call], rfl, by simp⟩
    · exact ⟨[close_event.release_rx_call, close_event.clear_attached], rfl, by simp⟩

/-- Witness for the amended C1 theorem at the all-success environment. -/
theorem close_pd_destroy_precedes_release_witness :
    ∃ rest, (mlx5_vdpa_dev_close envOk [privExCfg] 0).2.2 =
        close_event.unset_relay_call :: close_event.destroy_pd_call :: rest ∧
      close_event.destroy_pd_call ∉ rest :=
  close_pd_destroy_precedes_release envOk [privExCfg] 0 privExCfg rfl

/-- C4 counterexample: when destroying the PD object fails, close returns
-1 immediately — the RX release and the attachment-flag clearing are not
attempted (absent from the trace) and the attachment flag stays true, so
teardown is not best-effort. -/
theorem close_best_effort_cex :
    (mlx5_vdpa_dev_close envDestroyFail [privExCfg] 0).1 = -1 ∧
    (mlx5_vdpa_dev_close envDestroyFail [privExCfg] 0).2.2 =
      [close_event.unset_relay_call, close_event.destroy_pd_call] ∧
    close_event.release_rx_call ∉
      (mlx5_vdpa_dev_close envDestroyFail [privExCfg] 0).2.2 ∧
    close_event.clear_attached ∉
      (mlx5_vdpa_dev_close envDestroyFail [privExCfg] 0).2.2 ∧
    ∃ p, (mlx5_vdpa_dev_close envDestroyFail [privExCfg] 0).2.1 = some p ∧
      p.dev_attached = true := by
  exact ⟨rfl, rfl, by decide, by decide, ⟨_, rfl, rfl⟩⟩

/-- C4 (amended): teardown is abort-on-first-failure, not best-effort.  In
every close run that passes the device lookup, either all four steps run
(relay stop, PD destroy, RX release, attachment flag cleared) and close
returns 0, or close returns -1 at the first failing step, the subsequent
steps are absent from the trace, and the attachment flag is left
unchanged.  Only the relay stop is unconditional. -/
theorem close_aborts_at_first_failure (env : HwEnv) (reg : List vdpa_priv)
    (vid : Int) (priv : vdpa_priv)
    (hfind : find_priv_resource_by_did reg
        (env.rte_vhost_get_vdpa_device_id vid) = some priv) :
    ((mlx5_vdpa_dev_close env reg vid).1 = 0 ∧
      (mlx5_vdpa_dev_close env reg vid).2.2 =
        [close_event.unset_relay_call, close_event.destroy_pd_call,
         close_event.release_rx_call, close_event.clear_attached] ∧
      ∃ p, (mlx5_vdpa_dev_close env reg vid).2.1 = some p ∧
        p.dev_attached = false) ∨
    ((mlx5_vdpa_dev_close env reg vid).1 = -1 ∧
      ((mlx5_vdpa_dev_close env reg vid).2.2 =
          [close_event.unset_relay_call, close_event.destroy_pd_call] ∨
        (mlx5_vdpa_dev_close env reg vid).2.2 =
          [close_event.unset_relay_call, close_event.destroy_pd_call,
           close_event.release_rx_call]) ∧
      ∃ p, (mlx5_vdpa_dev_close env reg vid).2.1 = some p ∧
        p.dev_attached = priv.dev_attached) := by
  simp only [mlx5_vdpa_dev_close, hfind]
  split
  · exact .inr ⟨rfl, .inl rfl, ⟨_, rfl, rfl⟩⟩
  · split
    · refine .inr ⟨rfl, .inr rfl, ⟨_, rfl, ?_⟩⟩
      exact release_rx_loop_preserves_dev_attached env _ _
    · exact .inl ⟨rfl, rfl, ⟨_, rfl, rfl⟩⟩

/-- Witness for the amended C4 theorem at the destroy-failure environment. -/
theorem close_aborts_at_first_failure_witness :
    ((mlx5_vdpa_dev_close envDestroyFail [privExCfg] 0).1 = 0 ∧
      (mlx5_vdpa_dev_close envDestroyFail [privExCfg] 0).2.2 =
        [close_event.unset_relay_call, close_event.destroy_pd_call,
         close_event.release_rx_call, close_event.clear_attached] ∧
      ∃ p, (mlx5_vdpa_dev_close envDestroyFail [privExCfg] 0).2.1 = some p ∧
        p.dev_attached = false) ∨
    ((mlx5_vdpa_dev_close envDestroyFail [privExCfg] 0).1 = -1 ∧
      ((mlx5_vdpa_dev_close envDestroyFail [privExCfg] 0).2.2 =
          [close_event.unset_relay_call, close_event.destroy_pd_call] ∨
        (mlx5_vdpa_dev_close envDestroyFail [privExCfg] 0).2.2 =
          [close_event.unset_relay_call, close_event.destroy_pd_call,
           close_event.release_rx_call]) ∧
      ∃ p, (mlx5_vdpa_dev_close envDestroyFail [privExCfg] 0).2.1 = some p ∧
        p.dev_attached = privExCfg.dev_attached) :=
  close_aborts_at_first_failure envDestroyFail [privExCfg] 0 privExCfg rfl

/-- Drain loop behaviour on a read stream made of retryable errors followed
by a terminal outcome: all retryable errors are consumed silently, exactly
one doorbell write of the queue index is issued, and the only error ever
logged is a non-retryable one. -/
theorem kickfd_drain_terminal (priv : vdpa_priv) (qid : Nat)
    (pre : List read_result) (term : read_result) (rest : List read_result)
    (hpre : ∀ r ∈ pre, read_result_retryable r = true)
    (hterm : read_result_retryable term = false) :
    (kickfd_drain priv qid (pre ++ term :: rest)).1 =
      [mlx5_vdpa_notify_queue priv qid] ∧
    ∀ e ∈ (kickfd_drain priv qid (pre ++ term :: rest)).2,
      retryable_read_errno e = false := by
  induction pre with
  | nil =>
    cases term with
    | ok n => simp [kickfd_drain]
    | err e =>
      have he : retryable_read_errno e = false := by
        simpa [read_result_retryable] using hterm
      simp [kickfd_drain, he]
  | cons r pre ih =>
    cases r with
    | ok n =>
      have := hpre (.ok n) (List.mem_cons_self _ _)
      simp [read_result_retryable] at this
    | err e =>
      have he : retryable_read_errno e = true := by
        simpa [read_result_retryable] using hpre (.err e) (List.mem_cons_self _ _)
      simpa [kickfd_drain, he] using
        ih fun r hr => hpre r (List.mem_cons_of_mem _ hr)

/-- C7: in each wake iteration of the relay worker, for every ready kick
descriptor the worker drains the eventfd — retrying reads that fail with
EINTR, EAGAIN or EWOULDBLOCK and never surfacing those errors — and then
issues exactly one 4-byte doorbell write whose value is the queue index
extracted from the correlation tag of that descriptor, regardless of how
many kick signals were pending: the pending kicks are absorbed by the
single successful read of the eventfd counter, so the writes of a wake
iteration are exactly one per ready descriptor. -/
theorem relay_one_doorbell_write_per_ready_fd (priv : vdpa_priv)
    (reads : Nat → List read_result) (tags : List Nat)
    (h : ∀ t ∈ tags, ∃ pre term rest,
        reads (relay_tag_kickfd t) = pre ++ term :: rest ∧
        (∀ r ∈ pre, read_result_retryable r = true) ∧
        read_result_retryable term = false) :
    (relay_wake_iteration priv reads tags).1 =
      tags.map (fun t =>
        { value := epoll_data_u32 t, width := 4,
          base := priv.relay.notify_base }) ∧
    ∀ e ∈ (relay_wake_iteration priv reads tags).2,
      retryable_read_errno e = false := by
  induction tags with
  | nil => simp [relay_wake_iteration]
  | cons t rest ih =>
    obtain ⟨pre, term, rest2, hr, hpre, hterm⟩ := h t (List.mem_cons_self _ _)
    have hd := kickfd_drain_terminal priv (epoll_data_u32 t) pre term rest2 hpre hterm
    rw [← hr] at hd
    obtain ⟨ih1, ih2⟩ := ih fun u hu => h u (List.mem_cons_of_mem _ hu)
    constructor
    · simp [relay_wake_iteration, hd.1, ih1, mlx5_vdpa_notify_queue]
    · intro e he
      simp only [relay_wake_iteration, List.mem_append] at he
      rcases he with he | he
      · exact hd.2 e he
      · exact ih2 e he

/-- Witness for C7: a burst of 5 kicks on queue index 3 shows up as one
ready descriptor whose single successful read returns the accumulated
counter; the wake iteration issues exactly one doorbell write of value 3
and logs no error. -/
theorem relay_one_doorbell_write_per_ready_fd_witness :
    (relay_wake_iteration privExCfg (fun _ => [read_result.ok 8])
        [relay_pack_tag 3 7]).1 =
      [relay_pack_tag 3 7].map (fun t =>
        { value := epoll_data_u32 t, width := 4,
          base := privExCfg.relay.notify_base }) ∧
    ∀ e ∈ (relay_wake_iteration privExCfg (fun _ => [read_result.ok 8])
        [relay_pack_tag 3 7]).2,
      retryable_read_errno e = false :=
  relay_one_doorbell_write_per_ready_fd privExCfg (fun _ => [read_result.ok 8])
    [relay_pack_tag 3 7]
    (fun t _ => ⟨[], read_result.ok 8, [], rfl, fun r hr => absurd hr (List.not_mem_nil r), rfl⟩)

/-- Field bookkeeping of `create_rq`: only the slot at `idx` can change, and
only when the hardware call succeeds; the command inputs `vid` and `pdn`
and every other slot are preserved. -/
theorem create_rq_fields (env : HwEnv) (priv : vdpa_priv) (qsize idx : Nat) :
    (create_rq env priv qsize idx).2.vid = priv.vid ∧
    (create_rq env priv qsize idx).2.pdn = priv.pdn ∧
    (∀ j, j ≠ idx → (create_rq env priv qsize idx).2.virtq j = priv.virtq j) ∧
    ((create_rq env priv qsize idx).2.virtq idx =
      match env.dv_devx_create_rq idx qsize priv.pdn with
      | some rq => { rqn := rq.2, rq_obj := some rq.1 }
      | none => priv.virtq idx) := by
  rcases ho : env.dv_devx_create_rq idx qsize priv.pdn with _ | rq
  · exact ⟨by simp [create_rq, ho], by simp [create_rq, ho],
      fun j hj => by simp [create_rq, ho], by simp [create_rq, ho]⟩
  · exact ⟨by simp [create_rq, ho], by simp [create_rq, ho],
      fun j hj => by simp [create_rq, ho, hj], by simp [create_rq, ho]⟩

/-- The RX setup loop attempts a creation exactly at the even indices of the
index list, in order. -/
theorem setup_rx_loop_trace (env : HwEnv) (l : List Nat) (priv : vdpa_priv) :
    (setup_rx_loop env l priv).2 = l.filter (fun i => i == 0 || i % 2 == 0) := by
  induction l generalizing priv with
  | nil => rfl
  | cons j rest ih =>
    by_cases hj : (j == 0 || j % 2 == 0) = true
    · simp [setup_rx_loop, hj, ih]
    · simp [setup_rx_loop, hj, ih]

/-- The RX setup loop never modifies the session id or the PD number, the
inputs of the creation commands. -/
theorem setup_rx_loop_vid_pdn (env : HwEnv) (l : List Nat) (priv : vdpa_priv) :
    (setup_rx_loop env l priv).1.vid = priv.vid ∧
    (setup_rx_loop env l priv).1.pdn = priv.pdn := by
  induction l generalizing priv with
  | nil => exact ⟨rfl, rfl⟩
  | cons j rest ih =>
    by_cases hj : (j == 0 || j % 2 == 0) = true
    · obtain ⟨hvid, hpdn, -, -⟩ :=
        create_rq_fields env priv (env.vring_size priv.vid j) j
      constructor
      · simp only [setup_rx_loop, if_pos hj]
        rw [(ih _).1, hvid]
      · simp only [setup_rx_loop, if_pos hj]
        rw [(ih _).2, hpdn]
    · simp only [setup_rx_loop, if_neg hj]
      exact ih priv

/-- Queue slot characterization of the RX setup loop: odd slots and slots
outside the index list are untouched; each even listed slot ends up holding
the handle returned by its creation call when that call succeeds, and is
untouched when it fails. -/
theorem setup_rx_loop_virtq (env : HwEnv) (l : List Nat) (priv : vdpa_priv) :
    (∀ i, (i == 0 || i % 2 == 0) = false →
        (setup_rx_loop env l priv).1.virtq i = priv.virtq i) ∧
    (∀ i, i ∉ l → (setup_rx_loop env l priv).1.virtq i = priv.virtq i) ∧
    (∀ i ∈ l, (i == 0 || i % 2 == 0) = true →
        (setup_rx_loop env l priv).1.virtq i =
          match env.dv_devx_create_rq i (env.vring_size priv.vid i) priv.pdn with
          | some rq => { rqn := rq.2, rq_obj := some rq.1 }
          | none => priv.virtq i) := by
  induction l generalizing priv with
  | nil =>
    exact ⟨fun i _ => rfl, fun i _ => rfl, fun i hi => absurd hi (List.not_mem_nil i)⟩
  | cons j rest ih =>
    by_cases hj : (j == 0 || j % 2 == 0) = true
    · obtain ⟨hvid, hpdn, hne, hidx⟩ :=
        create_rq_fields env priv (env.vring_size priv.vid j) j
      obtain ⟨ihodd, ihout, ihin⟩ := ih (create_rq env priv (env.vring_size priv.vid j) j).2
      refine ⟨?_, ?_, ?_⟩
      · intro i hieven
        have hij : i ≠ j := fun h =>
          Bool.false_ne_true ((h ▸ hieven).symm.trans hj)
        simp only [setup_rx_loop, if_pos hj]
        rw [ihodd i hieven, hne i hij]
      · intro i hi
        have hij : i ≠ j := fun h => hi (h ▸ List.mem_cons_self j rest)
        have hirest : i ∉ rest := fun h => hi (List.mem_cons_of_mem j h)
        simp only [setup_rx_loop, if_pos hj]
        rw [ihout i hirest, hne i hij]
      · intro i hi hieven
        simp only [setup_rx_loop, if_pos hj]
        by_cases hij : i = j
        · subst hij
          by_cases hr : i ∈ rest
          · have hrec := ihin i hr hieven
            rw [hvid, hpdn] at hrec
            rw [hrec]
            rcases ho : env.dv_devx_create_rq i (env.vring_size priv.vid i) priv.pdn
              with _ | rq
            · simpa [ho] using hidx
            · simp
          · rw [ihout i hr, hidx]
        · have hir : i ∈ rest := by
            rcases List.mem_cons.mp hi with h | h
            · exact absurd h hij
            · exact h
          have hrec := ihin i hir hieven
          rw [hvid, hpdn] at hrec
          rw [hrec]
          rcases ho : env.dv_devx_create_rq i (env.vring_size priv.vid i) priv.pdn
            with _ | rq
          · simpa using hne i hij
          · rfl
    · obtain ⟨ihodd, ihout, ihin⟩ := ih priv
      refine ⟨?_, ?_, ?_⟩
      · intro i hieven
        simp only [setup_rx_loop, if_neg hj]
        exact ihodd i hieven
      · intro i hi
        simp only [setup_rx_loop, if_neg hj]
        exact ihout i fun h => hi (List.mem_cons_of_mem j h)
      · intro i hi hieven
        have hij : i ≠ j := fun h => hj (h ▸ hieven)
        have hir : i ∈ rest := by
          rcases List.mem_cons.mp hi with h | h
          · exact absurd h hij
          · exact h
        simp only [setup_rx_loop, if_neg hj]
        exact ihin i hir hieven

/-- Relay setup never touches the queue slots: it only changes relay state. -/
theorem setup_notify_relay_preserves_virtq (env : HwEnv) (priv : vdpa_priv)
    (i : Nat) :
    (mlx5_vdpa_setup_notify_relay env priv).2.virtq i = priv.virtq i := by
  rcases hm : env.mmap_doorbell
      (mlx5_vdpa_report_notify_area env.page_size priv.id 0).2.offset with _ | addr
  · simp [mlx5_vdpa_setup_notify_relay, hm]
  · rcases ht : env.pthread_create_tid with _ | tid <;>
      simp [mlx5_vdpa_setup_notify_relay, hm, ht]

/-- Shape of a configure run whose PD allocation succeeds: the loop result
is threaded through relay setup, the attachment flag is set, the return
value is 0 and the trace lists the PD call, the create calls and the
(ignored) relay call. -/
theorem dev_config_eq_of_pd_some (env : HwEnv) (reg : List vdpa_priv) (vid : Int)
    (priv : vdpa_priv) (pd : Nat × Nat)
    (hfind : find_priv_resource_by_did reg
        (env.rte_vhost_get_vdpa_device_id vid) = some priv)
    (hpd : env.dv_devx_alloc_pd = some pd) :
    mlx5_vdpa_dev_config env reg vid =
      (0,
        some { (mlx5_vdpa_setup_notify_relay env
              { (setup_rx_loop env (List.range (env.rte_vhost_get_vring_num vid))
                  { priv with vid := vid, pdn := pd.2, pd_obj := some pd.1 }).1
                with nr_vring := env.rte_vhost_get_vring_num vid }).2
          with dev_attached := true },
        config_event.create_pd_call ::
          ((setup_rx_loop env (List.range (env.rte_vhost_get_vring_num vid))
              { priv with vid := vid, pdn := pd.2, pd_obj := some pd.1 }).2.map
            config_event.create_rq_call ++
          [config_event.setup_relay_call (mlx5_vdpa_setup_notify_relay env
              { (setup_rx_loop env (List.range (env.rte_vhost_get_vring_num vid))
                  { priv with vid := vid, pdn := pd.2, pd_obj := some pd.1 }).1
                with nr_vring := env.rte_vhost_get_vring_num vid }).1,
            config_event.set_attached])) := by
  simp [mlx5_vdpa_dev_config, hfind, create_pd, hpd, mlx5_vdpa_setup_rx]

/-- C5: provisioning first allocates exactly one protection-domain object
and aborts entirely — no receive-queue creation is attempted — when that
allocation fails; otherwise, for a guest queue count N within the capacity
of the 2-entry `virtq` array (beyond it the C code would index the array
out of bounds, so larger counts have no defined behavior to verify), it
attempts a receive-queue creation exactly at the even indices of `0..N` in
increasing order, an individual creation failure only skips that index
while provisioning continues and configure still returns overall success,
and the array slots are populated exactly at the even indices whose
creation call succeeded and empty at all odd indices (and beyond N). -/
theorem provision_even_indices_tolerates_rq_failures (env : HwEnv)
    (reg : List vdpa_priv) (vid : Int) (priv : vdpa_priv)
    (hfind : find_priv_resource_by_did reg
        (env.rte_vhost_get_vdpa_device_id vid) = some priv)
    (hcap : env.rte_vhost_get_vring_num vid ≤ MLX5_VDPA_SW_MAX_VIRTQS_SUPPORTED * 2)
    (hempty : ∀ i, i < MLX5_VDPA_SW_MAX_VIRTQS_SUPPORTED * 2 →
        priv.virtq i = { rqn := 0, rq_obj := none }) :
    (env.dv_devx_alloc_pd = none →
      (mlx5_vdpa_dev_config env reg vid).1 = -1 ∧
      ∀ i, config_event.create_rq_call i ∉ (mlx5_vdpa_dev_config env reg vid).2.2) ∧
    (∀ pd, env.dv_devx_alloc_pd = some pd →
      (mlx5_vdpa_dev_config env reg vid).1 = 0 ∧
      (mlx5_vdpa_dev_config env reg vid).2.2.filterMap config_event_rq_idx =
        (List.range (env.rte_vhost_get_vring_num vid)).filter
          (fun i => i == 0 || i % 2 == 0) ∧
      ∃ p, (mlx5_vdpa_dev_config env reg vid).2.1 = some p ∧
        (∀ i, i < env.rte_vhost_get_vring_num vid →
          (i == 0 || i % 2 == 0) = true →
          p.virtq i =
            match env.dv_devx_create_rq i (env.vring_size vid i) pd.2 with
            | some rq => { rqn := rq.2, rq_obj := some rq.1 }
            | none => { rqn := 0, rq_obj := none }) ∧
        (∀ i, i < MLX5_VDPA_SW_MAX_VIRTQS_SUPPORTED * 2 →
          (i == 0 || i % 2 == 0) = false →
          p.virtq i = { rqn := 0, rq_obj := none }) ∧
        (∀ i, i < MLX5_VDPA_SW_MAX_VIRTQS_SUPPORTED * 2 →
          env.rte_vhost_get_vring_num vid ≤ i →
          p.virtq i = { rqn := 0, rq_obj := none })) := by
  constructor
  · intro hpd
    constructor
    · simp [mlx5_vdpa_dev_config, hfind, create_pd, hpd]
    · intro i
      simp [mlx5_vdpa_dev_config, hfind, create_pd, hpd]
  · intro pd hpd
    have hcfg := dev_config_eq_of_pd_some env reg vid priv pd hfind hpd
    obtain ⟨hodd, hout, hin⟩ := setup_rx_loop_virtq env
      (List.range (env.rte_vhost_get_vring_num vid))
      { priv with vid := vid, pdn := pd.2, pd_obj := some pd.1 }
    refine ⟨by rw [hcfg], ?_, ?_⟩
    · rw [hcfg]
      simp only [List.filterMap_cons, List.filterMap_append, List.filterMap_map,
        config_event_rq_idx]
      rw [setup_rx_loop_trace]
      have hcomp : (config_event_rq_idx ∘ config_event.create_rq_call) =
          fun i => some i := by
        funext i
        rfl
      rw [hcomp, List.filterMap_some]
      simp
    · refine ⟨_, by rw [hcfg], ?_, ?_, ?_⟩
      · intro i hiN hieven
        rw [setup_notify_relay_preserves_virtq]
        have hmem : i ∈ List.range (env.rte_vhost_get_vring_num vid) :=
          List.mem_range.mpr hiN
        have := hin i hmem hieven
        rw [show ({ priv with vid := vid, pdn := pd.2, pd_obj := some pd.1 } :
            vdpa_priv).virtq i = { rqn := 0, rq_obj := none } from
          hempty i (lt_of_lt_of_le hiN hcap)] at this
        exact this
      · intro i hicap hieven
        rw [setup_notify_relay_preserves_virtq, hodd i hieven]
        exact hempty i hicap
      · intro i hicap hiN
        rw [setup_notify_relay_preserves_virtq,
          hout i (by simpa [List.mem_range] using Nat.not_lt.mpr hiN)]
        exact hempty i hicap

/-- Witness for C5 at the capacity queue count 2: with a succeeding
creation, configure returns 0, attempts creation exactly at even index 0,
populates slot 0 and leaves the odd slot 1 empty; with the creation
failing, configure still returns 0, still attempts index 0, and slot 0
stays empty (the degraded software-relay state). -/
theorem provision_even_indices_tolerates_rq_failures_witness :
    ((mlx5_vdpa_dev_config envOk [privEx0] 0).1 = 0 ∧
      (mlx5_vdpa_dev_config envOk [privEx0] 0).2.2.filterMap
        config_event_rq_idx = [0] ∧
      ∃ p, (mlx5_vdpa_dev_config envOk [privEx0] 0).2.1 = some p ∧
        p.virtq 0 = { rqn := 7, rq_obj := some 20 } ∧
        p.virtq 1 = { rqn := 0, rq_obj := none }) ∧
    ((mlx5_vdpa_dev_config envRqFail [privEx0] 0).1 = 0 ∧
      (mlx5_vdpa_dev_config envRqFail [privEx0] 0).2.2.filterMap
        config_event_rq_idx = [0] ∧
      ∃ p, (mlx5_vdpa_dev_config envRqFail [privEx0] 0).2.1 = some p ∧
        p.virtq 0 = { rqn := 0, rq_obj := none }) := by
  have h1 := (provision_even_indices_tolerates_rq_failures envOk [privEx0] 0
    privEx0 rfl (by decide) (fun i _ => rfl)).2 (10, 5) rfl
  have h2 := (provision_even_indices_tolerates_rq_failures envRqFail [privEx0] 0
    privEx0 rfl (by decide) (fun i _ => rfl)).2 (10, 5) rfl
  obtain ⟨p1, hp1, hin1, hodd1, -⟩ := h1.2.2
  obtain ⟨p2, hp2, hin2, -, -⟩ := h2.2.2
  refine ⟨⟨h1.1, ?_, p1, hp1, ?_, ?_⟩, h2.1, ?_, p2, hp2, ?_⟩
  · rw [h1.2.1]
    decide
  · exact (hin1 0 (by decide) (by decide)).trans rfl
  · exact (hodd1 1 (by decide) (by decide)).trans rfl
  · rw [h2.2.1]
    decide
  · exact (hin2 0 (by decide) (by decide)).trans rfl

/-- `zero_rqn` only changes the `rqn` bookkeeping: the object handles of all
slots are preserved. -/
theorem zero_rqn_rq_obj (priv : vdpa_priv) (i j : Nat) :
    ((zero_rqn priv i).virtq j).rq_obj = (priv.virtq j).rq_obj := by
  by_cases h : j = i <;> simp [zero_rqn, h]

/-- `zero_rqn` leaves every other slot untouched. -/
theorem zero_rqn_virtq_ne (priv : vdpa_priv) (i j : Nat) (h : j ≠ i) :
    (zero_rqn priv i).virtq j = priv.virtq j := by
  simp [zero_rqn, h]

/-- `zero_rqn` resets the `rqn` of the addressed slot. -/
theorem zero_rqn_virtq_self (priv : vdpa_priv) (i : Nat) :
    (zero_rqn priv i).virtq i = { priv.virtq i with rqn := 0 } := by
  simp [zero_rqn]

/-- The release loop when every destroy on the even listed slots succeeds:
it returns 0, attempts the destroys exactly at the even indices in order,
resets `rqn` on each of them and leaves every other slot untouched. -/
theorem release_rx_loop_all_ok (env : HwEnv) (l : List Nat) (priv : vdpa_priv)
    (h : ∀ i ∈ l, (i == 0 || i % 2 == 0) = true →
        env.dv_devx_obj_destroy (priv.virtq i).rq_obj = 0) :
    (release_rx_loop env l priv).1 = 0 ∧
    (release_rx_loop env l priv).2.2 = l.filter (fun i => i == 0 || i % 2 == 0) ∧
    (∀ j ∈ l, (j == 0 || j % 2 == 0) = true →
      (release_rx_loop env l priv).2.1.virtq j = { priv.virtq j with rqn := 0 }) ∧
    (∀ j, j ∉ l → (release_rx_loop env l priv).2.1.virtq j = priv.virtq j) ∧
    (∀ j, (j == 0 || j % 2 == 0) = false →
      (release_rx_loop env l priv).2.1.virtq j = priv.virtq j) := by
  induction l generalizing priv with
  | nil =>
    exact ⟨rfl, rfl, fun j hj => absurd hj (List.not_mem_nil j),
      fun j _ => rfl, fun j _ => rfl⟩
  | cons i rest ih =>
    by_cases hi : (i == 0 || i % 2 == 0) = true
    · have hdi : env.dv_devx_obj_destroy (priv.virtq i).rq_obj = 0 :=
        h i (List.mem_cons_self _ _) hi
      have hrec : ∀ j ∈ rest, (j == 0 || j % 2 == 0) = true →
          env.dv_devx_obj_destroy ((zero_rqn priv i).virtq j).rq_obj = 0 := by
        intro j hj hjeven
        rw [show ((zero_rqn priv i).virtq j).rq_obj = (priv.virtq j).rq_obj from
          zero_rqn_rq_obj priv i j]
        exact h j (List.mem_cons_of_mem _ hj) hjeven
      obtain ⟨ih1, ih2, ih3, ih4, ih5⟩ := ih (zero_rqn priv i) hrec
      have hbne : (env.dv_devx_obj_destroy (priv.virtq i).rq_obj != 0) = false := by
        simp [hdi]
      refine ⟨?_, ?_, ?_, ?_, ?_⟩
      · simp only [release_rx_loop, if_pos hi, hbne, Bool.false_eq_true, if_false]
        exact ih1
      · simp only [release_rx_loop, if_pos hi, hbne, Bool.false_eq_true, if_false]
        simp [hi, ih2]
      · intro j hj hjeven
        simp only [release_rx_loop, if_pos hi, hbne, Bool.false_eq_true, if_false]
        by_cases hji : j = i
        · subst hji
          by_cases hr : j ∈ rest
          · rw [ih3 j hr hjeven, zero_rqn_virtq_self]
          · rw [ih4 j hr, zero_rqn_virtq_self]
        · have hr : j ∈ rest := by
            rcases List.mem_cons.mp hj with hcase | hcase
            · exact absurd hcase hji
            · exact hcase
          rw [ih3 j hr hjeven, zero_rqn_virtq_ne priv i j hji]
      · intro j hj
        have hji : j ≠ i := fun hcase => hj (hcase ▸ List.mem_cons_self i rest)
        have hr : j ∉ rest := fun hcase => hj (List.mem_cons_of_mem _ hcase)
        simp only [release_rx_loop, if_pos hi, hbne, Bool.false_eq_true, if_false]
        rw [ih4 j hr, zero_rqn_virtq_ne priv i j hji]
      · intro j hjodd
        have hji : j ≠ i := fun hcase =>
          Bool.false_ne_true ((hcase ▸ hjodd).symm.trans hi)
        simp only [release_rx_loop, if_pos hi, hbne, Bool.false_eq_true, if_false]
        rw [ih5 j hjodd, zero_rqn_virtq_ne priv i j hji]
    · obtain ⟨ih1, ih2, ih3, ih4, ih5⟩ := ih priv
        (fun j hj hjeven => h j (List.mem_cons_of_mem _ hj) hjeven)
      refine ⟨?_, ?_, ?_, ?_, ?_⟩
      · simpa only [release_rx_loop, if_neg hi] using ih1
      · simp only [release_rx_loop, if_neg hi]
        simp [hi, ih2]
      · intro j hj hjeven
        have hji : j ≠ i := fun hcase => hi (hcase ▸ hjeven)
        have hr : j ∈ rest := by
          rcases List.mem_cons.mp hj with hcase | hcase
          · exact absurd hcase hji
          · exact hcase
        simpa only [release_rx_loop, if_neg hi] using ih3 j hr hjeven
      · intro j hj
        simpa only [release_rx_loop, if_neg hi] using
          ih4 j fun hcase => hj (List.mem_cons_of_mem _ hcase)
      · intro j hjodd
        simpa only [release_rx_loop, if_neg hi] using ih5 j hjodd

/-- The release loop on a strictly increasing index list when the destroy of
even slot `k` fails and every even slot before `k` destroys successfully:
it stops at `k` immediately with -1, the attempted destroys are exactly the
even indices up to and including `k` in order, `rqn` is reset exactly on
the even slots strictly before `k`, and every slot from `k` on (and every
odd or unlisted slot) is untouched. -/
theorem release_rx_loop_first_fail (env : HwEnv) (l : List Nat) (priv : vdpa_priv)
    (k : Nat) (hk : k ∈ l) (hkeven : (k == 0 || k % 2 == 0) = true)
    (hkfail : env.dv_devx_obj_destroy (priv.virtq k).rq_obj ≠ 0)
    (hsorted : List.Pairwise (· < ·) l)
    (hbefore : ∀ j ∈ l, (j == 0 || j % 2 == 0) = true → j < k →
        env.dv_devx_obj_destroy (priv.virtq j).rq_obj = 0) :
    (release_rx_loop env l priv).1 = -1 ∧
    (release_rx_loop env l priv).2.2 =
      l.filter (fun i => (i == 0 || i % 2 == 0) && decide (i < k)) ++ [k] ∧
    (∀ j ∈ l, (j == 0 || j % 2 == 0) = true → j < k →
      (release_rx_loop env l priv).2.1.virtq j = { priv.virtq j with rqn := 0 }) ∧
    (∀ j, k ≤ j → (release_rx_loop env l priv).2.1.virtq j = priv.virtq j) ∧
    (∀ j, (j == 0 || j % 2 == 0) = false →
      (release_rx_loop env l priv).2.1.virtq j = priv.virtq j) ∧
    (∀ j, j ∉ l → (release_rx_loop env l priv).2.1.virtq j = priv.virtq j) := by
  induction l generalizing priv with
  | nil => exact absurd hk (List.not_mem_nil k)
  | cons i rest ih =>
    rcases List.mem_cons.mp hk with hki | hkr
    · -- the failing index is the head
      subst hki
      have hbne : (env.dv_devx_obj_destroy (priv.virtq k).rq_obj != 0) = true := by
        simpa using hkfail
      have hrest_gt : ∀ j ∈ rest, k < j := fun j hj =>
        (List.pairwise_cons.mp hsorted).1 j hj
      refine ⟨?_, ?_, ?_, ?_, ?_, ?_⟩
      · simp only [release_rx_loop, if_pos hkeven, hbne, if_true]
      · simp only [release_rx_loop, if_pos hkeven, hbne, if_true]
        have hfilter : rest.filter
            (fun i => (i == 0 || i % 2 == 0) && decide (i < k)) = [] := by
          rw [List.filter_eq_nil_iff]
          intro j hj
          simp [Nat.not_lt.mpr (le_of_lt (hrest_gt j hj))]
        simp [hfilter, Nat.lt_irrefl]
      · intro j hj hjeven hjk
        rcases List.mem_cons.mp hj with hcase | hcase
        · omega
        · exact absurd hjk (Nat.not_lt.mpr (le_of_lt (hrest_gt j hcase)))
      · intro j hj
        simp only [release_rx_loop, if_pos hkeven, hbne, if_true]
      · intro j hjodd
        simp only [release_rx_loop, if_pos hkeven, hbne, if_true]
      · intro j hj
        simp only [release_rx_loop, if_pos hkeven, hbne, if_true]
    · -- the failing index is further down the list
      have hik : i < k := (List.pairwise_cons.mp hsorted).1 k hkr
      have hsorted2 : List.Pairwise (· < ·) rest :=
        (List.pairwise_cons.mp hsorted).2
      by_cases hi : (i == 0 || i % 2 == 0) = true
      · have hdi : env.dv_devx_obj_destroy (priv.virtq i).rq_obj = 0 :=
          hbefore i (List.mem_cons_self _ _) hi hik
        have hbne : (env.dv_devx_obj_destroy (priv.virtq i).rq_obj != 0) = false := by
          simp [hdi]
        have hkfail2 :
            env.dv_devx_obj_destroy ((zero_rqn priv i).virtq k).rq_obj ≠ 0 := by
          rw [zero_rqn_rq_obj]
          exact hkfail
        have hbefore2 : ∀ j ∈ rest, (j == 0 || j % 2 == 0) = true → j < k →
            env.dv_devx_obj_destroy ((zero_rqn priv i).virtq j).rq_obj = 0 := by
          intro j hj hjeven hjk
          rw [zero_rqn_rq_obj]
          exact hbefore j (List.mem_cons_of_mem _ hj) hjeven hjk
        obtain ⟨ih1, ih2, ih3, ih4, ih5, ih6⟩ :=
          ih (zero_rqn priv i) hkr hkfail2 hsorted2 hbefore2
        refine ⟨?_, ?_, ?_, ?_, ?_, ?_⟩
        · simpa only [release_rx_loop, if_pos hi, hbne, Bool.false_eq_true,
            if_false] using ih1
        · simp only [release_rx_loop, if_pos hi, hbne, Bool.false_eq_true,
            if_false]
          simp [hi, hik, ih2]
        · intro j hj hjeven hjk
          simp only [release_rx_loop, if_pos hi, hbne, Bool.false_eq_true,
            if_false]
          by_cases hji : j = i
          · subst hji
            have hr : j ∉ rest := fun hcase =>
              Nat.lt_irrefl j ((List.pairwise_cons.mp hsorted).1 j hcase)
            rw [ih6 j hr, zero_rqn_virtq_self]
          · have hr : j ∈ rest := by
              rcases List.mem_cons.mp hj with hcase | hcase
              · exact absurd hcase hji
              · exact hcase
            rw [ih3 j hr hjeven hjk, zero_rqn_virtq_ne priv i j hji]
        · intro j hj
          have hji : j ≠ i := fun hcase => by omega
          simp only [release_rx_loop, if_pos hi, hbne, Bool.false_eq_true,
            if_false]
          rw [ih4 j hj, zero_rqn_virtq_ne priv i j hji]
        · intro j hjodd
          have hji : j ≠ i := fun hcase =>
            Bool.false_ne_true ((hcase ▸ hjodd).symm.trans hi)
          simp only [release_rx_loop, if_pos hi, hbne, Bool.false_eq_true,
            if_false]
          rw [ih5 j hjodd, zero_rqn_virtq_ne priv i j hji]
        · intro j hj
          have hji : j ≠ i := fun hcase => hj (hcase ▸ List.mem_cons_self i rest)
          have hr : j ∉ rest := fun hcase => hj (List.mem_cons_of_mem _ hcase)
          simp only [release_rx_loop, if_pos hi, hbne, Bool.false_eq_true,
            if_false]
          rw [ih6 j hr, zero_rqn_virtq_ne priv i j hji]
      · obtain ⟨ih1, ih2, ih3, ih4, ih5, ih6⟩ := ih priv hkr hkfail hsorted2
          (fun j hj hjeven hjk => hbefore j (List.mem_cons_of_mem _ hj) hjeven hjk)
        refine ⟨?_, ?_, ?_, ?_, ?_, ?_⟩
        · simpa only [release_rx_loop, if_neg hi] using ih1
        · simp only [release_rx_loop, if_neg hi]
          simp [hi, ih2]
        · intro j hj hjeven hjk
          have hji : j ≠ i := fun hcase => hi (hcase ▸ hjeven)
          have hr : j ∈ rest := by
            rcases List.mem_cons.mp hj with hcase | hcase
            · exact absurd hcase hji
            · exact hcase
          simpa only [release_rx_loop, if_neg hi] using ih3 j hr hjeven hjk
        · intro j hj
          simpa only [release_rx_loop, if_neg hi] using ih4 j hj
        · intro j hjodd
          simpa only [release_rx_loop, if_neg hi] using ih5 j hjodd
        · intro j hj
          simpa only [release_rx_loop, if_neg hi] using
            ih6 j fun hcase => hj (List.mem_cons_of_mem _ hcase)

/-- C6: for a device context whose queue count is within the capacity of
the 2-entry `virtq` array (beyond it the C code would index the array out
of bounds, so larger counts have no defined behavior to verify), the
release operation attempts the destroys in increasing index order over the
even slots below `nr_vring`.  When every destroy succeeds it returns 0,
resets `rqn` on exactly those slots and leaves all other slots untouched;
when the destroy of even slot `k` is the first to fail, release reports
failure (-1) and stops immediately — the attempted destroys are exactly
the even indices up to and including `k`, `rqn` is reset only on the even
slots before `k` (the successful destroys), and every slot from `k` on is
untouched. -/
theorem release_rx_stops_at_first_failure (env : HwEnv) (priv : vdpa_priv)
    (hcap : priv.nr_vring ≤ MLX5_VDPA_SW_MAX_VIRTQS_SUPPORTED * 2) :
    ((∀ i, i < priv.nr_vring → (i == 0 || i % 2 == 0) = true →
        env.dv_devx_obj_destroy (priv.virtq i).rq_obj = 0) →
      (mlx5_vdpa_release_rx env priv).1 = 0 ∧
      (mlx5_vdpa_release_rx env priv).2.2 =
        (List.range priv.nr_vring).filter (fun i => i == 0 || i % 2 == 0) ∧
      (∀ i, i < priv.nr_vring → (i == 0 || i % 2 == 0) = true →
        (mlx5_vdpa_release_rx env priv).2.1.virtq i =
          { priv.virtq i with rqn := 0 }) ∧
      (∀ i, i < MLX5_VDPA_SW_MAX_VIRTQS_SUPPORTED * 2 →
        (i == 0 || i % 2 == 0) = false ∨ priv.nr_vring ≤ i →
        (mlx5_vdpa_release_rx env priv).2.1.virtq i = priv.virtq i)) ∧
    (∀ k, k < priv.nr_vring → (k == 0 || k % 2 == 0) = true →
      env.dv_devx_obj_destroy (priv.virtq k).rq_obj ≠ 0 →
      (∀ j, j < k → (j == 0 || j % 2 == 0) = true →
        env.dv_devx_obj_destroy (priv.virtq j).rq_obj = 0) →
      (mlx5_vdpa_release_rx env priv).1 = -1 ∧
      (mlx5_vdpa_release_rx env priv).2.2 =
        ((List.range priv.nr_vring).filter
          (fun i => (i == 0 || i % 2 == 0) && decide (i < k))) ++ [k] ∧
      (∀ j, j < k → (j == 0 || j % 2 == 0) = true →
        (mlx5_vdpa_release_rx env priv).2.1.virtq j =
          { priv.virtq j with rqn := 0 }) ∧
      (∀ j, j < MLX5_VDPA_SW_MAX_VIRTQS_SUPPORTED * 2 →
        k ≤ j ∨ (j == 0 || j % 2 == 0) = false →
        (mlx5_vdpa_release_rx env priv).2.1.virtq j = priv.virtq j)) := by
  constructor
  · intro h
    obtain ⟨h1, h2, h3, h4, h5⟩ := release_rx_loop_all_ok env
      (List.range priv.nr_vring) priv
      (fun i hi hieven => h i (List.mem_range.mp hi) hieven)
    refine ⟨h1, h2, ?_, ?_⟩
    · intro i hiN hieven
      exact h3 i (List.mem_range.mpr hiN) hieven
    · intro i hicap hi
      rcases hi with hiodd | hiN
      · exact h5 i hiodd
      · exact h4 i (by simpa [List.mem_range] using Nat.not_lt.mpr hiN)
  · intro k hkN hkeven hkfail hbefore
    obtain ⟨h1, h2, h3, h4, h5, h6⟩ := release_rx_loop_first_fail env
      (List.range priv.nr_vring) priv k (List.mem_range.mpr hkN) hkeven hkfail
      (List.pairwise_lt_range priv.nr_vring)
      (fun j _ hjeven hjk => hbefore j hjk hjeven)
    refine ⟨h1, h2, ?_, ?_⟩
    · intro j hjk hjeven
      exact h3 j (List.mem_range.mpr (lt_trans hjk hkN)) hjeven hjk
    · intro j hjcap hj
      rcases hj with hjk | hjodd
      · exact h4 j hjk
      · exact h5 j hjodd

/-- Witness for C6 at the capacity queue count 2: `privExCfg` has its one
receive queue at slot 0.  With every destroy succeeding, release returns 0,
attempts exactly the destroy at index 0, resets `rqn` of slot 0 (keeping
its handle) and leaves the odd slot 1 untouched; with the destroy of the
slot-0 handle failing, release returns -1 after attempting exactly index 0
and slot 0 keeps its `rqn` (no reset on a failed destroy). -/
theorem release_rx_stops_at_first_failure_witness :
    ((mlx5_vdpa_release_rx envOk privExCfg).1 = 0 ∧
      (mlx5_vdpa_release_rx envOk privExCfg).2.2 = [0] ∧
      (mlx5_vdpa_release_rx envOk privExCfg).2.1.virtq 0 =
        { rqn := 0, rq_obj := some 20 } ∧
      (mlx5_vdpa_release_rx envOk privExCfg).2.1.virtq 1 =
        { rqn := 0, rq_obj := none }) ∧
    ((mlx5_vdpa_release_rx envDestroy20Fail privExCfg).1 = -1 ∧
      (mlx5_vdpa_release_rx envDestroy20Fail privExCfg).2.2 = [0] ∧
      (mlx5_vdpa_release_rx envDestroy20Fail privExCfg).2.1.virtq 0 =
        { rqn := 7, rq_obj := some 20 }) := by
  have h1 := (release_rx_stops_at_first_failure envOk privExCfg
    (by decide)).1 (by decide)
  have h2 := (release_rx_stops_at_first_failure envDestroy20Fail privExCfg
    (by decide)).2 0 (by decide) (by decide) (by decide) (by decide)
  refine ⟨⟨h1.1, ?_, ?_, ?_⟩, h2.1, ?_, ?_⟩
  · rw [h1.2.1]
    decide
  · exact (h1.2.2.1 0 (by decide) (by decide)).trans rfl
  · exact (h1.2.2.2 1 (by decide) (Or.inl (by decide))).trans rfl
  · rw [h2.2.1]
    decide
  · exact (h2.2.2.2 0 (by decide) (Or.inl (le_refl 0))).trans rfl
